import Mathlib

/-!
Shallow embedding of the `pmux` terminal multiplexer core (`src/main.rs`).

The PTY host, the VT screen emulator and the host terminal are external
collaborators; a pane's OS-side resources are abstracted away and we record,
per pane, the data the model operations actually consult or produce:
whether its child process has exited (the result of `child.try_wait()`),
the byte stream written to its PTY master, and its last-applied size.
Freshly spawned panes (the result of `openpty` + `spawn_command` in
`create_window` / `split_active`) are passed in as an explicit argument.
Timestamps (`Instant`) are modelled as natural-number milliseconds.
-/

namespace Rmux

/-- One pane: the observable residue of `struct Pane` (main.rs lines 19-25).
`exited` is what `child.try_wait()` reports, `written` the bytes written to
`master`, `last_rows`/`last_cols` the last-applied PTY size. -/
structure Pane where
  exited : Bool
  written : List Nat
  last_rows : Nat
  last_cols : Nat
deriving DecidableEq, Repr

/-- `enum LayoutKind` (main.rs line 27). -/
inductive LayoutKind where
  | Horizontal
  | Vertical
deriving DecidableEq, Repr

/-- `struct Window` (main.rs lines 29-33). -/
structure Window where
  panes : List Pane
  active_pane : Nat
  layout : LayoutKind
deriving DecidableEq, Repr

/-- `enum Mode` (main.rs lines 35-39). The source names the armed variant
`Prefix { armed_at: Instant }`; it is called `PrefixArmed` here, with the
timestamp as natural-number milliseconds. -/
inductive Mode where
  | Passthrough
  | PrefixArmed (armed_at : Nat)
  | CommandPrompt (input : String)
deriving DecidableEq, Repr

/-- Relevant subset of crossterm `KeyCode` (the constructors main.rs matches on). -/
inductive KeyCode where
  | Char (c : Char)
  | Enter
  | Tab
  | Backspace
  | Esc
  | Left
  | Right
  | Up
  | Down
  | Other
deriving DecidableEq, Repr

/-- crossterm `KeyModifiers`, as the three flag bits the program can observe. -/
structure KeyModifiers where
  ctrl : Bool
  alt : Bool
  shift : Bool
deriving DecidableEq, Repr

/-- A key event in press phase (`KeyEvent { code, modifiers }`). -/
structure KeyEvent where
  code : KeyCode
  modifiers : KeyModifiers
deriving DecidableEq, Repr

/-- `struct AppState` (main.rs lines 41-47). -/
structure AppState where
  windows : List Window
  active_idx : Nat
  mode : Mode
  escape_time_ms : Nat
  prefix_key : KeyCode × KeyModifiers
deriving DecidableEq, Repr

/-- UTF-8 encoding of one scalar value, as bytes; this is what
`write!(active.master, "{}", c)` emits for a `char`. -/
def utf8Bytes (c : Char) : List Nat :=
  let n := c.toNat
  if n < 128 then [n]
  else if n < 2048 then
    [192 ||| (n >>> 6), 128 ||| (n &&& 63)]
  else if n < 65536 then
    [224 ||| (n >>> 12), 128 ||| ((n >>> 6) &&& 63), 128 ||| (n &&& 63)]
  else
    [240 ||| (n >>> 18), 128 ||| ((n >>> 12) &&& 63), 128 ||| ((n >>> 6) &&& 63), 128 ||| (n &&& 63)]

/-- Append bytes to the active pane of the active window (a write on that
pane's PTY master). -/
def writeActive (app : AppState) (bs : List Nat) : AppState :=
  let windows2 :=
    app.windows.modify
      (fun win =>
        { win with
          panes := win.panes.modify (fun p => { p with written := p.written ++ bs }) win.active_pane })
      app.active_idx
  { app with windows := windows2 }

/-- `forward_key_to_active` (main.rs lines 349-367). -/
def forward_key_to_active (app : AppState) (key : KeyEvent) : AppState :=
  match key.code with
  | KeyCode.Char c =>
      if key.modifiers.ctrl = false then writeActive app (utf8Bytes c) else app
  | KeyCode.Enter => writeActive app [13]
  | KeyCode.Tab => writeActive app [9]
  | KeyCode.Backspace => writeActive app [8]
  | KeyCode.Esc => writeActive app [27]
  | KeyCode.Left => writeActive app [27, 91, 68]
  | KeyCode.Right => writeActive app [27, 91, 67]
  | KeyCode.Up => writeActive app [27, 91, 65]
  | KeyCode.Down => writeActive app [27, 91, 66]
  | KeyCode.Other => app

/-- `create_window` (main.rs lines 224-261): append a new one-pane window
holding the freshly spawned pane and make it active. -/
def create_window (fresh : Pane) (app : AppState) : AppState :=
  let windows2 := app.windows ++ [{ panes := [fresh], active_pane := 0, layout := LayoutKind.Horizontal }]
  { app with windows := windows2, active_idx := windows2.length - 1 }

/-- `split_active` (main.rs lines 369-407): push the freshly spawned pane
onto the active window, make it the active pane, overwrite the layout kind. -/
def split_active (app : AppState) (fresh : Pane) (kind : LayoutKind) : AppState :=
  let windows2 :=
    app.windows.modify
      (fun win =>
        let panes2 := win.panes ++ [fresh]
        { win with panes := panes2, active_pane := panes2.length - 1, layout := kind })
      app.active_idx
  { app with windows := windows2 }

/-- `kill_active_pane` (main.rs lines 409-417). -/
def kill_active_pane (app : AppState) : AppState :=
  let windows2 :=
    app.windows.modify
      (fun win =>
        if win.panes.length ≤ 1 then win
        else
          let panes2 := win.panes.eraseIdx win.active_pane
          let active2 := if panes2.length ≤ win.active_pane then panes2.length - 1 else win.active_pane
          { win with panes := panes2, active_pane := active2 })
      app.active_idx
  { app with windows := windows2 }

/-- `execute_command_prompt` (main.rs lines 428-451). -/
def execute_command_prompt (app : AppState) (fresh : Pane) : AppState :=
  let cmdline := match app.mode with
    | Mode.CommandPrompt input => input
    | _ => ""
  let app1 := { app with mode := Mode.Passthrough }
  let parts := (cmdline.split Char.isWhitespace).filter (fun s => !s.isEmpty)
  match parts with
  | [] => app1
  | verb :: _ =>
    if verb = "new-window" then create_window fresh app1
    else if verb = "split-window" then
      let kind := if parts.any (fun p => p == "-h") then LayoutKind.Horizontal else LayoutKind.Vertical
      split_active app1 fresh kind
    else if verb = "kill-pane" then kill_active_pane app1
    else if verb = "next-window" then
      { app1 with active_idx := (app1.active_idx + 1) % app1.windows.length }
    else if verb = "previous-window" then
      { app1 with active_idx := (app1.active_idx + app1.windows.length - 1) % app1.windows.length }
    else if verb = "select-window" then
      match (parts.findIdx? (fun p => p == "-t")).bind (fun i => parts[i + 1]?) with
      | some tstr =>
        match tstr.toNat? with
        | some n =>
            if 0 < n ∧ n ≤ app1.windows.length then { app1 with active_idx := n - 1 } else app1
        | none => app1
      | none => app1
    else app1

/-- The command dispatch of the `Mode::Prefix` arm of `handle_key`
(the `match key.code` at main.rs lines 281-323): the state after the
action, and the `handled` flag. `Char.ofNat 34` is the double-quote key. -/
def prefix_command (app : AppState) (key : KeyEvent) (fresh : Pane) : AppState × Bool :=
  match key.code with
  | KeyCode.Char d =>
      if d.isDigit then
        let idx := d.toNat - 48
        (if 0 < idx ∧ idx ≤ app.windows.length then
           { app with active_idx := idx - 1 }
         else app, true)
      else if d = 'c' then (create_window fresh app, true)
      else if d = 'n' then
        (if app.windows.isEmpty = false then
           { app with active_idx := (app.active_idx + 1) % app.windows.length }
         else app, true)
      else if d = 'p' then
        (if app.windows.isEmpty = false then
           { app with active_idx := (app.active_idx + app.windows.length - 1) % app.windows.length }
         else app, true)
      else if d = '%' then (split_active app fresh LayoutKind.Vertical, true)
      else if d = Char.ofNat 34 then (split_active app fresh LayoutKind.Horizontal, true)
      else if d = 'x' then (kill_active_pane app, true)
      else if d = ':' then ({ app with mode := Mode.CommandPrompt "" }, true)
      else (app, false)
  | _ => (app, false)

/-- `handle_key` (main.rs lines 263-347). `now` is the current time in
milliseconds (so `elapsed = now - armed_at` models `armed_at.elapsed()`),
`fresh` the pane a `create_window` / `split_active` call would spawn.
Returns the new state and the quit flag. -/
def handle_key (app : AppState) (key : KeyEvent) (now : Nat) (fresh : Pane) : AppState × Bool :=
  if key.code = KeyCode.Char 'q' ∧ key.modifiers.ctrl = true then
    (app, true)
  else
    match app.mode with
    | Mode.Passthrough =>
        if (key.code, key.modifiers) = app.prefix_key ∨ key.code = KeyCode.Char (Char.ofNat 2) then
          ({ app with mode := Mode.PrefixArmed now }, false)
        else
          (forward_key_to_active app key, false)
    | Mode.PrefixArmed armed_at =>
        let elapsed := now - armed_at
        let step := prefix_command app key fresh
        let app2 := { step.1 with mode := Mode.Passthrough }
        if step.2 = false ∧ elapsed < app.escape_time_ms then (app2, false) else (app2, false)
    | Mode.CommandPrompt input =>
        match key.code with
        | KeyCode.Esc => ({ app with mode := Mode.Passthrough }, false)
        | KeyCode.Enter => (execute_command_prompt app fresh, false)
        | KeyCode.Backspace => ({ app with mode := Mode.CommandPrompt (input.dropRight 1) }, false)
        | KeyCode.Char c => ({ app with mode := Mode.CommandPrompt (input.push c) }, false)
        | _ => (app, false)

/-- Inner reaping loop of `reap_children` (main.rs lines 472-487): walk the
pane list from position `j`, remove each pane whose child exited, clamping
the window's active index after each removal. -/
def reapPanesGo (panes : List Pane) (j : Nat) (active_pane : Nat) : List Pane × Nat :=
  if h : j < panes.length then
    if panes[j].exited then
      let panes2 := panes.eraseIdx j
      let active2 := if panes2.length ≤ active_pane then panes2.length - 1 else active_pane
      reapPanesGo panes2 j active2
    else
      reapPanesGo panes (j + 1) active_pane
  else
    (panes, active_pane)
termination_by panes.length - j
decreasing_by
  · have := List.length_eraseIdx_of_lt h
    omega
  · omega

/-- Reap one window's exited panes (the body of the outer loop acting on
`win`, main.rs lines 471-487). -/
def reap_panes (win : Window) : Window :=
  let r := reapPanesGo win.panes 0 win.active_pane
  { win with panes := r.1, active_pane := r.2 }

/-- Outer reaping loop of `reap_children` (main.rs lines 469-496): walk the
window list from position `i`, reap each window's panes, remove windows that
became empty, clamping the active window index after each removal. -/
def reapChildrenGo (ws : List Window) (i : Nat) (active_idx : Nat) : List Window × Nat :=
  if h : i < ws.length then
    let w2 := reap_panes ws[i]
    let ws2 := ws.set i w2
    if w2.panes.isEmpty then
      let ws3 := ws2.eraseIdx i
      let ai2 := if ws3.length ≤ active_idx then ws3.length - 1 else active_idx
      reapChildrenGo ws3 i ai2
    else
      reapChildrenGo ws2 (i + 1) active_idx
  else
    (ws, active_idx)
termination_by ws.length - i
decreasing_by
  · have h2 : (ws.set i (reap_panes ws[i])).length = ws.length := List.length_set ws i _
    have h3 := List.length_eraseIdx_of_lt (l := ws.set i (reap_panes ws[i])) (i := i) (by omega)
    omega
  · have h2 : (ws.set i (reap_panes ws[i])).length = ws.length := List.length_set ws i _
    omega

/-- `reap_children` (main.rs lines 468-498): returns the reaped state and
whether no windows remain. -/
def reap_children (app : AppState) : AppState × Bool :=
  let r := reapChildrenGo app.windows 0 app.active_idx
  ({ app with windows := r.1, active_idx := r.2 }, r.1.isEmpty)

/-- Feed a sequence of key events through `handle_key`, stopping when the
quit flag is set (as the supervisor loop does). -/
def processKeys (fresh : Pane) (now : Nat) : AppState → List KeyEvent → AppState × Bool
  | app, [] => (app, false)
  | app, k :: ks =>
      let r := handle_key app k now fresh
      if r.2 then (r.1, true) else processKeys fresh now r.1 ks

/-- The per-window model invariant: a non-empty pane list has its active
index in range. -/
def WindowWF (w : Window) : Prop :=
  w.panes ≠ [] → w.active_pane < w.panes.length

instance (w : Window) : Decidable (WindowWF w) := by
  unfold WindowWF; infer_instance

/-- The app-level model invariant from the spec: if windows exist the active
window index is in range, and every window satisfies `WindowWF`. -/
def AppWF (app : AppState) : Prop :=
  (app.windows ≠ [] → app.active_idx < app.windows.length) ∧ ∀ w ∈ app.windows, WindowWF w

instance (app : AppState) : Decidable (AppWF app) := by
  unfold AppWF; infer_instance

/-- Startup effects of `main` (main.rs lines 49-58), in program order. -/
inductive StartEffect where
  | writeStderrLine (msg : String)
  | setEnvVar (key value : String)
  | enableRaw
  | enterAltScreen
  | applyCursorStyle
deriving DecidableEq, Repr

/-- The startup path of `main` (main.rs lines 49-58): given the value of the
`RMUX_ACTIVE` environment variable, the effect trace it performs, and
`some code` when it returns immediately with that exit code (the nested
refusal), `none` when it continues into the session. -/
def main_startup (rmuxActive : Option String) : List StartEffect × Option Nat :=
  if rmuxActive = some "1" then
    ([StartEffect.writeStderrLine "rmux: nested sessions are not allowed"], some 0)
  else
    ([StartEffect.setEnvVar "RMUX_ACTIVE" "1", StartEffect.enableRaw,
      StartEffect.enterAltScreen, StartEffect.applyCursorStyle], none)

/-- Key event for a plain character key with no modifiers. -/
def charKey (c : Char) : KeyEvent :=
  { code := KeyCode.Char c, modifiers := { ctrl := false, alt := false, shift := false } }

/-- The key events produced by typing a string. -/
def keysOf (s : String) : List KeyEvent :=
  s.toList.map charKey

/-- The command keys the `Mode::Prefix` arm of `handle_key` recognizes
(the guarded patterns at main.rs lines 282-321). -/
def prefixRecognized (code : KeyCode) : Bool :=
  match code with
  | KeyCode.Char d =>
      d.isDigit || d = 'c' || d = 'n' || d = 'p' || d = '%' || d = Char.ofNat 34 || d = 'x' || d = ':'
  | _ => false


theorem take_eraseIdx_self {α : Type _} {l : List α} {j : Nat} (h : j < l.length) :
    (l.eraseIdx j).take j = l.take j := by
  rw [List.eraseIdx_eq_take_drop_succ]
  exact List.take_left' (by rw [List.length_take]; omega)

theorem drop_eraseIdx_self {α : Type _} {l : List α} {j : Nat} (h : j < l.length) :
    (l.eraseIdx j).drop j = l.drop (j + 1) := by
  rw [List.eraseIdx_eq_take_drop_succ]
  exact List.drop_left' (by rw [List.length_take]; omega)

theorem reapPanesGo_spec (panes : List Pane) (j a : Nat) :
    (reapPanesGo panes j a).1 = panes.take j ++ (panes.drop j).filter (fun p => !p.exited) ∧
    (reapPanesGo panes j a).2 =
      (if (panes.drop j).any (fun p => p.exited) then
         (if j + ((panes.drop j).filter (fun p => !p.exited)).length ≤ a then
            j + ((panes.drop j).filter (fun p => !p.exited)).length - 1
          else a)
       else a) := by
  induction panes, j, a using reapPanesGo.induct with
  | case1 panes j a hlt hex panes2 active2 ih =>
      have hdrop : panes.drop j = panes[j] :: panes.drop (j + 1) := List.drop_eq_getElem_cons hlt
      have hlen2 : (panes.eraseIdx j).length = panes.length - 1 := List.length_eraseIdx_of_lt hlt
      have hfil : (panes.drop j).filter (fun p => !p.exited)
          = (panes.drop (j + 1)).filter (fun p => !p.exited) := by
        rw [hdrop, List.filter_cons_of_neg (by simp [hex])]
      have hany : ((panes.drop j).any fun p => p.exited) = true := by
        rw [hdrop, List.any_cons, hex]
        rfl
      have hF : ((panes.drop (j + 1)).filter (fun p => !p.exited)).length ≤ panes.length - (j + 1) := by
        calc ((panes.drop (j + 1)).filter (fun p => !p.exited)).length
            ≤ (panes.drop (j + 1)).length := List.length_filter_le _ _
          _ = panes.length - (j + 1) := List.length_drop _ _
      have hstep : reapPanesGo panes j a
          = reapPanesGo (panes.eraseIdx j)
              j (if (panes.eraseIdx j).length ≤ a then (panes.eraseIdx j).length - 1 else a) := by
        rw [reapPanesGo]
        simp only [dif_pos hlt, if_pos hex]
      have ih' := ih
      rw [show panes2 = panes.eraseIdx j from rfl,
          show active2 = (if (panes.eraseIdx j).length ≤ a then (panes.eraseIdx j).length - 1 else a) from rfl,
          take_eraseIdx_self hlt, drop_eraseIdx_self hlt] at ih'
      obtain ⟨ihA, ihB⟩ := ih'
      rw [hstep]
      constructor
      · rw [ihA, hfil]
      · rw [ihB, hfil, hlen2]
        by_cases hc2 : ((panes.drop (j + 1)).any fun p => p.exited) = true
        · rw [if_pos hc2, if_pos hany]
          split_ifs <;> omega
        · rw [if_neg hc2, if_pos hany]
          have hc2f : ((panes.drop (j + 1)).any fun p => p.exited) = false := by
            cases hh : ((panes.drop (j + 1)).any fun p => p.exited) with
            | false => rfl
            | true => exact absurd hh hc2
          have hall : (panes.drop (j + 1)).filter (fun p => !p.exited) = panes.drop (j + 1) := by
            rw [List.filter_eq_self]
            intro x hx
            have := List.any_eq_false.mp hc2f x hx
            simpa using this
          rw [hall, List.length_drop]
          split_ifs <;> omega
  | case2 panes j a hlt hex ih =>
      have hexf : panes[j].exited = false := by simpa using hex
      have hdrop : panes.drop j = panes[j] :: panes.drop (j + 1) := List.drop_eq_getElem_cons hlt
      have hfil : (panes.drop j).filter (fun p => !p.exited)
          = panes[j] :: (panes.drop (j + 1)).filter (fun p => !p.exited) := by
        rw [hdrop, List.filter_cons_of_pos (by simp [hexf])]
      have hany : ((panes.drop j).any fun p => p.exited)
          = ((panes.drop (j + 1)).any fun p => p.exited) := by
        rw [hdrop, List.any_cons, hexf]
        rfl
      have htake : panes.take (j + 1) = panes.take j ++ [panes[j]] := by
        rw [List.take_succ, List.getElem?_eq_getElem hlt]
        rfl
      have hstep : reapPanesGo panes j a = reapPanesGo panes (j + 1) a := by
        rw [reapPanesGo]
        simp only [dif_pos hlt, if_neg hex]
      obtain ⟨ihA, ihB⟩ := ih
      rw [hstep]
      constructor
      · rw [ihA, hfil, htake, List.append_assoc]
        rfl
      · rw [ihB, hfil, hany, List.length_cons]
        by_cases hc2 : ((panes.drop (j + 1)).any fun p => p.exited) = true
        · rw [if_pos hc2, if_pos hc2]
          split_ifs <;> omega
        · rw [if_neg hc2, if_neg hc2]
  | case3 panes j a hlt =>
      have hdrop : panes.drop j = [] := List.drop_eq_nil_of_le (by omega)
      have htake : panes.take j = panes := List.take_of_length_le (by omega)
      have hstep : reapPanesGo panes j a = (panes, a) := by
        rw [reapPanesGo]
        simp only [dif_neg hlt]
      rw [hstep, hdrop, htake]
      simp


theorem eraseIdx_set_self {α : Type _} {l : List α} {i : Nat} {x : α} (h : i < l.length) :
    (l.set i x).eraseIdx i = l.eraseIdx i := by
  have hset : l.set i x = l.take i ++ x :: l.drop (i + 1) := by
    rw [List.set_eq_take_append_cons_drop, if_pos h]
  have hlen : (l.take i).length = i := by rw [List.length_take]; omega
  rw [hset, List.eraseIdx_eq_take_drop_succ, List.eraseIdx_eq_take_drop_succ,
      List.take_left' hlen]
  congr 1
  have : l.take i ++ x :: l.drop (i + 1) = (l.take i ++ [x]) ++ l.drop (i + 1) := by
    rw [List.append_assoc]
    rfl
  rw [this, List.drop_left' (by rw [List.length_append, hlen]; rfl)]

theorem take_set_self {α : Type _} {l : List α} {i : Nat} {x : α} :
    (l.set i x).take i = l.take i := by
  rw [List.set_take]
  exact List.set_eq_of_length_le (by rw [List.length_take]; omega)

theorem take_succ_set_self {α : Type _} {l : List α} {i : Nat} {x : α} (h : i < l.length) :
    (l.set i x).take (i + 1) = l.take i ++ [x] := by
  have hset : l.set i x = l.take i ++ x :: l.drop (i + 1) := by
    rw [List.set_eq_take_append_cons_drop, if_pos h]
  have hlen : (l.take i).length = i := by rw [List.length_take]; omega
  have hsplit : l.take i ++ x :: l.drop (i + 1) = (l.take i ++ [x]) ++ l.drop (i + 1) := by
    rw [List.append_assoc]
    rfl
  rw [hset, hsplit, List.take_left' (by rw [List.length_append, hlen]; rfl)]

theorem drop_succ_set_self {α : Type _} {l : List α} {i : Nat} {x : α} :
    (l.set i x).drop (i + 1) = l.drop (i + 1) := by
  rw [List.drop_set, if_pos (by omega)]

theorem reapChildrenGo_spec (ws : List Window) (i ai : Nat) :
    (reapChildrenGo ws i ai).1
        = ws.take i ++ ((ws.drop i).map reap_panes).filter (fun w => !w.panes.isEmpty) ∧
    (reapChildrenGo ws i ai).2 =
      (if ((ws.drop i).map reap_panes).any (fun w => w.panes.isEmpty) then
         (if i + (((ws.drop i).map reap_panes).filter (fun w => !w.panes.isEmpty)).length ≤ ai then
            i + (((ws.drop i).map reap_panes).filter (fun w => !w.panes.isEmpty)).length - 1
          else ai)
       else ai) := by
  induction ws, i, ai using reapChildrenGo.induct with
  | case1 ws i ai hlt w2 ws2 hemp ws3 ai2 ih =>
      have hw2 : w2 = reap_panes ws[i] := rfl
      have hdrop : ws.drop i = ws[i] :: ws.drop (i + 1) := List.drop_eq_getElem_cons hlt
      have hmap : (ws.drop i).map reap_panes
          = reap_panes ws[i] :: (ws.drop (i + 1)).map reap_panes := by
        rw [hdrop, List.map_cons]
      have hempty : (reap_panes ws[i]).panes.isEmpty = true := hw2 ▸ hemp
      have hfil : ((ws.drop i).map reap_panes).filter (fun w => !w.panes.isEmpty)
          = ((ws.drop (i + 1)).map reap_panes).filter (fun w => !w.panes.isEmpty) := by
        rw [hmap, List.filter_cons_of_neg (by simp [hempty])]
      have hany : (((ws.drop i).map reap_panes).any fun w => w.panes.isEmpty) = true := by
        rw [hmap, List.any_cons, hempty]
        rfl
      have hws3 : ws3 = ws.eraseIdx i := by
        show (ws.set i w2).eraseIdx i = ws.eraseIdx i
        exact eraseIdx_set_self hlt
      have hlen2 : (ws.eraseIdx i).length = ws.length - 1 := List.length_eraseIdx_of_lt hlt
      have hlenset : (ws.set i w2).length = ws.length := List.length_set ws i w2
      have hai2 : ai2 = (if ws.length - 1 ≤ ai then ws.length - 1 - 1 else ai) := by
        show (if ws3.length ≤ ai then ws3.length - 1 else ai) = _
        rw [hws3, hlen2]
      have hF : (((ws.drop (i + 1)).map reap_panes).filter (fun w => !w.panes.isEmpty)).length
          ≤ ws.length - (i + 1) := by
        calc (((ws.drop (i + 1)).map reap_panes).filter (fun w => !w.panes.isEmpty)).length
            ≤ ((ws.drop (i + 1)).map reap_panes).length := List.length_filter_le _ _
          _ = (ws.drop (i + 1)).length := List.length_map _ _
          _ = ws.length - (i + 1) := List.length_drop _ _
      have hstep : reapChildrenGo ws i ai = reapChildrenGo ws3 i ai2 := by
        rw [reapChildrenGo]
        simp only [dif_pos hlt, if_pos hemp]
        rfl
      have ih2 := ih
      rw [hws3, hai2, take_eraseIdx_self hlt, drop_eraseIdx_self hlt] at ih2
      obtain ⟨ihA, ihB⟩ := ih2
      rw [hstep, hws3, hai2]
      constructor
      · rw [ihA, hfil]
      · rw [ihB, hfil]
        by_cases hc2 : (((ws.drop (i + 1)).map reap_panes).any fun w => w.panes.isEmpty) = true
        · rw [if_pos hc2, if_pos hany]
          split_ifs <;> omega
        · rw [if_neg hc2, if_pos hany]
          have hc2f : (((ws.drop (i + 1)).map reap_panes).any fun w => w.panes.isEmpty) = false := by
            cases hh : (((ws.drop (i + 1)).map reap_panes).any fun w => w.panes.isEmpty) with
            | false => rfl
            | true => exact absurd hh hc2
          have hall : ((ws.drop (i + 1)).map reap_panes).filter (fun w => !w.panes.isEmpty)
              = (ws.drop (i + 1)).map reap_panes := by
            rw [List.filter_eq_self]
            intro x hx
            have := List.any_eq_false.mp hc2f x hx
            simpa using this
          rw [hall, List.length_map, List.length_drop]
          split_ifs <;> omega
  | case2 ws i ai hlt w2 ws2 hemp ih =>
      have hw2 : w2 = reap_panes ws[i] := rfl
      have hdrop : ws.drop i = ws[i] :: ws.drop (i + 1) := List.drop_eq_getElem_cons hlt
      have hmap : (ws.drop i).map reap_panes
          = reap_panes ws[i] :: (ws.drop (i + 1)).map reap_panes := by
        rw [hdrop, List.map_cons]
      have hempty : (reap_panes ws[i]).panes.isEmpty = false := by
        have := hw2 ▸ hemp
        simpa using this
      have hfil : ((ws.drop i).map reap_panes).filter (fun w => !w.panes.isEmpty)
          = reap_panes ws[i] :: ((ws.drop (i + 1)).map reap_panes).filter (fun w => !w.panes.isEmpty) := by
        rw [hmap, List.filter_cons_of_pos (by simp [hempty])]
      have hany : (((ws.drop i).map reap_panes).any fun w => w.panes.isEmpty)
          = (((ws.drop (i + 1)).map reap_panes).any fun w => w.panes.isEmpty) := by
        rw [hmap, List.any_cons, hempty]
        rfl
      have hstep : reapChildrenGo ws i ai = reapChildrenGo ws2 (i + 1) ai := by
        rw [reapChildrenGo]
        simp only [dif_pos hlt, if_neg hemp]
      have ih2 := ih
      rw [show ws2 = ws.set i w2 from rfl, take_succ_set_self hlt, drop_succ_set_self] at ih2
      obtain ⟨ihA, ihB⟩ := ih2
      rw [hstep, show ws2 = ws.set i w2 from rfl]
      constructor
      · rw [ihA, hfil, hw2, List.append_assoc]
        rfl
      · rw [ihB, hfil, hany, List.length_cons]
        by_cases hc2 : (((ws.drop (i + 1)).map reap_panes).any fun w => w.panes.isEmpty) = true
        · rw [if_pos hc2, if_pos hc2]
          split_ifs <;> omega
        · rw [if_neg hc2, if_neg hc2]
  | case3 ws i ai hlt =>
      have hdrop : ws.drop i = [] := List.drop_eq_nil_of_le (by omega)
      have htake : ws.take i = ws := List.take_of_length_le (by omega)
      have hstep : reapChildrenGo ws i ai = (ws, ai) := by
        rw [reapChildrenGo]
        simp only [dif_neg hlt]
      rw [hstep, hdrop, htake]
      simp


theorem reap_panes_panes (w : Window) :
    (reap_panes w).panes = w.panes.filter (fun p => !p.exited) := by
  show (reapPanesGo w.panes 0 w.active_pane).1 = _
  rw [(reapPanesGo_spec w.panes 0 w.active_pane).1]
  simp

theorem reap_panes_active (w : Window) (hwf : w.active_pane < w.panes.length) :
    (reap_panes w).active_pane = min w.active_pane ((reap_panes w).panes.length - 1) := by
  have hsp := (reapPanesGo_spec w.panes 0 w.active_pane).2
  have hp := reap_panes_panes w
  have hlenF : (w.panes.filter (fun p => !p.exited)).length ≤ w.panes.length :=
    List.length_filter_le _ _
  show (reapPanesGo w.panes 0 w.active_pane).2 = _
  rw [hsp, hp]
  simp only [List.drop_zero]
  by_cases hany : (w.panes.any fun p => p.exited) = true
  · rw [if_pos hany]
    simp only [Nat.zero_add]
    split_ifs <;> omega
  · rw [if_neg hany]
    have hanyf : (w.panes.any fun p => p.exited) = false := by
      cases hh : (w.panes.any fun p => p.exited) with
      | false => rfl
      | true => exact absurd hh hany
    have hall : w.panes.filter (fun p => !p.exited) = w.panes := by
      rw [List.filter_eq_self]
      intro x hx
      have := List.any_eq_false.mp hanyf x hx
      simpa using this
    rw [hall]
    omega

theorem reap_children_windows (app : AppState) :
    (reap_children app).1.windows
      = (app.windows.map reap_panes).filter (fun w => !w.panes.isEmpty) := by
  show (reapChildrenGo app.windows 0 app.active_idx).1 = _
  rw [(reapChildrenGo_spec app.windows 0 app.active_idx).1]
  simp

theorem reap_children_active_idx (app : AppState) (h : app.active_idx < app.windows.length) :
    (reap_children app).1.active_idx
      = min app.active_idx ((reap_children app).1.windows.length - 1) := by
  have hsp := (reapChildrenGo_spec app.windows 0 app.active_idx).2
  have hw := reap_children_windows app
  have hlenF : ((app.windows.map reap_panes).filter (fun w => !w.panes.isEmpty)).length
      ≤ app.windows.length := by
    calc ((app.windows.map reap_panes).filter (fun w => !w.panes.isEmpty)).length
        ≤ (app.windows.map reap_panes).length := List.length_filter_le _ _
      _ = app.windows.length := List.length_map _ _
  show (reapChildrenGo app.windows 0 app.active_idx).2 = _
  rw [hsp, hw]
  simp only [List.drop_zero]
  by_cases hany : ((app.windows.map reap_panes).any fun w => w.panes.isEmpty) = true
  · rw [if_pos hany]
    simp only [Nat.zero_add]
    split_ifs <;> omega
  · rw [if_neg hany]
    have hanyf : ((app.windows.map reap_panes).any fun w => w.panes.isEmpty) = false := by
      cases hh : ((app.windows.map reap_panes).any fun w => w.panes.isEmpty) with
      | false => rfl
      | true => exact absurd hh hany
    have hall : (app.windows.map reap_panes).filter (fun w => !w.panes.isEmpty)
        = app.windows.map reap_panes := by
      rw [List.filter_eq_self]
      intro x hx
      have := List.any_eq_false.mp hanyf x hx
      simpa using this
    rw [hall, List.length_map]
    omega

theorem reap_children_quit (app : AppState) :
    (reap_children app).2 = (reap_children app).1.windows.isEmpty := rfl

theorem wf_reap (app : AppState) (h : AppWF app) : AppWF (reap_children app).1 := by
  obtain ⟨h1, h2⟩ := h
  constructor
  · intro hne
    have hmem : app.windows ≠ [] := by
      intro hnil
      apply hne
      rw [reap_children_windows, hnil]
      rfl
    have hai := reap_children_active_idx app (h1 hmem)
    have hlen : 0 < (reap_children app).1.windows.length := List.length_pos.mpr hne
    omega
  · intro w' hw'
    rw [reap_children_windows app] at hw'
    have hfil := List.mem_filter.mp hw'
    obtain ⟨w, hwmem, hweq⟩ := List.mem_map.mp hfil.1
    intro hne
    have hwnil : w.panes ≠ [] := by
      intro hnil
      apply hne
      rw [← hweq, reap_panes_panes, hnil]
      rfl
    have hwf := h2 w hwmem hwnil
    have hap : w'.active_pane = min w.active_pane (w'.panes.length - 1) := by
      rw [← hweq]
      exact reap_panes_active w hwf
    have hlen : 0 < w'.panes.length := List.length_pos.mpr hne
    omega


theorem wf_modify_at (app : AppState) (f : Window → Window)
    (hf : ∀ w, WindowWF w → WindowWF (f w)) (h : AppWF app) :
    AppWF { app with windows := app.windows.modify f app.active_idx } := by
  obtain ⟨h1, h2⟩ := h
  constructor
  · intro hne
    simp only [List.length_modify]
    apply h1
    intro hnil
    apply hne
    simp [hnil]
  · intro w' hw'
    simp only at hw'
    obtain ⟨k, hk, hkeq⟩ := List.mem_iff_getElem.mp hw'
    have hk' : k < app.windows.length := by simpa using hk
    rw [List.getElem_modify] at hkeq
    by_cases hek : app.active_idx = k
    · rw [if_pos hek] at hkeq
      subst hkeq
      exact hf _ (h2 _ (List.getElem_mem hk'))
    · rw [if_neg hek] at hkeq
      subst hkeq
      exact h2 _ (List.getElem_mem hk')

theorem wf_create (fresh : Pane) (app : AppState) (h : AppWF app) :
    AppWF (create_window fresh app) := by
  obtain ⟨h1, h2⟩ := h
  constructor
  · intro _
    simp [create_window]
  · intro w hw
    simp only [create_window, List.mem_append, List.mem_singleton] at hw
    rcases hw with hw | hw
    · exact h2 w hw
    · subst hw
      intro _
      simp

theorem wf_split (app : AppState) (fresh : Pane) (kind : LayoutKind) (h : AppWF app) :
    AppWF (split_active app fresh kind) := by
  apply wf_modify_at app _ _ h
  intro w _ _
  simp only [List.length_append, List.length_cons, List.length_nil]
  omega

theorem wf_kill (app : AppState) (h : AppWF app) : AppWF (kill_active_pane app) := by
  apply wf_modify_at app _ _ h
  intro w hw
  by_cases hlen : w.panes.length ≤ 1
  · simpa [hlen] using hw
  · intro _
    simp only [if_neg hlen]
    have := List.length_eraseIdx w.panes w.active_pane
    split_ifs at this ⊢ <;> simp_all <;> omega

theorem wf_write (app : AppState) (bs : List Nat) (h : AppWF app) :
    AppWF (writeActive app bs) := by
  apply wf_modify_at app _ _ h
  intro w hw hne
  have hlen : (w.panes.modify (fun p => { p with written := p.written ++ bs }) w.active_pane).length
      = w.panes.length := List.length_modify _ _ _
  simp only [hlen]
  apply hw
  intro hnil
  apply hne
  simp [hnil]

theorem wf_forward (app : AppState) (key : KeyEvent) (h : AppWF app) :
    AppWF (forward_key_to_active app key) := by
  unfold forward_key_to_active
  split
  · split
    · exact wf_write app _ h
    · exact h
  all_goals first
    | exact wf_write app _ h
    | exact h

theorem wf_mode (app : AppState) (m : Mode) (h : AppWF app) :
    AppWF { app with mode := m } := ⟨h.1, h.2⟩

theorem wf_set_idx (app : AppState) (k : Nat)
    (hk : app.windows ≠ [] → k < app.windows.length) (h : AppWF app) :
    AppWF { app with active_idx := k } := ⟨hk, h.2⟩

theorem wf_execute (app : AppState) (fresh : Pane) (h : AppWF app) :
    AppWF (execute_command_prompt app fresh) := by
  have hP : AppWF { app with mode := Mode.Passthrough } := wf_mode app _ h
  unfold execute_command_prompt
  split
  all_goals
    dsimp only
    split
    · exact hP
    · split
      · exact wf_create _ _ hP
      · split
        · exact wf_split _ _ _ hP
        · split
          · exact wf_kill _ hP
          · split
            · refine ⟨fun hne => ?_, hP.2⟩
              dsimp only at hne ⊢
              exact Nat.mod_lt _ (List.length_pos.mpr hne)
            · split
              · refine ⟨fun hne => ?_, hP.2⟩
                dsimp only at hne ⊢
                exact Nat.mod_lt _ (List.length_pos.mpr hne)
              · split
                · split
                  · split
                    · split
                      · rename_i hcond
                        refine ⟨fun hne => ?_, hP.2⟩
                        dsimp only at hcond hne ⊢
                        omega
                      · exact hP
                    · exact hP
                  · exact hP
                · exact hP


theorem wf_prefix_command (app : AppState) (key : KeyEvent) (fresh : Pane)
    (h : AppWF app) : AppWF (prefix_command app key fresh).1 := by
  unfold prefix_command
  split
  · rename_i d hd
    dsimp only
    split_ifs with h1 h2 h3 h4 h5 h6 h7 h8 h9 h10 h11
    · refine ⟨fun _ => ?_, h.2⟩
      show d.toNat - 48 - 1 < app.windows.length
      omega
    · exact h
    · exact wf_create fresh app h
    · refine ⟨fun _ => ?_, h.2⟩
      show (app.active_idx + 1) % app.windows.length < app.windows.length
      exact Nat.mod_lt _ (List.length_pos.mpr (List.isEmpty_eq_false.mp h5))
    · exact h
    · refine ⟨fun _ => ?_, h.2⟩
      show (app.active_idx + app.windows.length - 1) % app.windows.length < app.windows.length
      exact Nat.mod_lt _ (List.length_pos.mpr (List.isEmpty_eq_false.mp h7))
    · exact h
    · exact wf_split app fresh _ h
    · exact wf_split app fresh _ h
    · exact wf_kill app h
    · exact wf_mode app _ h
    · exact h
  · exact h

theorem handle_key_armed_step (app : AppState) (key : KeyEvent) (now : Nat) (fresh : Pane)
    (armed : Nat) (hm : app.mode = Mode.PrefixArmed armed)
    (hq : ¬(key.code = KeyCode.Char 'q' ∧ key.modifiers.ctrl = true)) :
    handle_key app key now fresh
      = ({ (prefix_command app key fresh).1 with mode := Mode.Passthrough }, false) := by
  obtain ⟨ws, ai, mode, esc, pk⟩ := app
  simp only at hm
  subst hm
  unfold handle_key
  rw [if_neg hq]
  dsimp only
  rw [ite_self]

theorem wf_handle (app : AppState) (key : KeyEvent) (now : Nat) (fresh : Pane)
    (h : AppWF app) : AppWF (handle_key app key now fresh).1 := by
  unfold handle_key
  split
  · exact h
  · split
    · split
      · exact wf_mode app _ h
      · exact wf_forward app key h
    · dsimp only
      rw [ite_self]
      exact wf_mode _ _ (wf_prefix_command app key fresh h)
    · split
      · exact wf_mode app _ h
      · exact wf_execute app fresh h
      · exact wf_mode app _ h
      · exact wf_mode app _ h
      · exact h


theorem modify_eq_self_of_fix {α : Type _} (l : List α) (i : Nat) (f : α → α)
    (h : ∀ x, l[i]? = some x → f x = x) : l.modify f i = l := by
  apply List.ext_getElem?
  intro m
  rw [List.getElem?_modify]
  by_cases hm : i = m
  · subst hm
    cases hx : l[i]? with
    | none => rfl
    | some x => simp [h x hx]
  · cases hx : l[m]? with
    | none => rfl
    | some x => simp [hm]

theorem eraseIdx_append_singleton {α : Type _} (xs : List α) (x : α) :
    (xs ++ [x]).eraseIdx xs.length = xs := by
  rw [List.eraseIdx_eq_take_drop_succ, List.take_left,
      List.drop_eq_nil_of_le (by simp), List.append_nil]

theorem kill_at_active (app : AppState) (w : Window)
    (hw : app.windows[app.active_idx]? = some w) (hlen : 1 < w.panes.length) :
    (kill_active_pane app).windows[app.active_idx]?
      = some { w with panes := w.panes.eraseIdx w.active_pane,
                      active_pane := min w.active_pane
                        ((w.panes.eraseIdx w.active_pane).length - 1) } := by
  show (app.windows.modify _ app.active_idx)[app.active_idx]? = _
  rw [List.getElem?_modify_eq, hw]
  simp only [Option.map_some]
  congr 1
  rw [if_neg (by omega)]
  congr 1
  split_ifs <;> omega

theorem kill_singleton_noop (app : AppState) (w : Window)
    (hw : app.windows[app.active_idx]? = some w) (hlen : w.panes.length = 1) :
    kill_active_pane app = app := by
  show { app with windows := _ } = app
  have : app.windows.modify
      (fun win =>
        if win.panes.length ≤ 1 then win
        else
          let panes2 := win.panes.eraseIdx win.active_pane
          let active2 := if panes2.length ≤ win.active_pane then panes2.length - 1 else win.active_pane
          { win with panes := panes2, active_pane := active2 })
      app.active_idx = app.windows := by
    apply modify_eq_self_of_fix
    intro x hx
    rw [hw] at hx
    cases hx
    rw [if_pos (by omega)]
  rw [this]


theorem split_at_active (app : AppState) (fresh : Pane) (kind : LayoutKind) (w : Window)
    (hw : app.windows[app.active_idx]? = some w) :
    (split_active app fresh kind).windows[app.active_idx]?
      = some { w with panes := w.panes ++ [fresh],
                      active_pane := (w.panes ++ [fresh]).length - 1, layout := kind } := by
  show (app.windows.modify _ app.active_idx)[app.active_idx]? = _
  rw [List.getElem?_modify_eq, hw]
  rfl

theorem split_preserves_frame (app : AppState) (fresh : Pane) (kind : LayoutKind) :
    (split_active app fresh kind).active_idx = app.active_idx ∧
    (split_active app fresh kind).windows.length = app.windows.length := by
  constructor
  · rfl
  · show (app.windows.modify _ app.active_idx).length = _
    exact List.length_modify _ _ _

theorem prefix_command_unrecognized (app : AppState) (key : KeyEvent) (fresh : Pane)
    (hr : prefixRecognized key.code = false) :
    prefix_command app key fresh = (app, false) := by
  unfold prefix_command
  unfold prefixRecognized at hr
  split
  · rename_i d hd
    rw [hd] at hr
    simp only [Bool.or_eq_false_iff, decide_eq_false_iff_not] at hr
    split_ifs <;> first | rfl | simp_all
  · rfl

theorem prefix_command_digit (app : AppState) (mods : KeyModifiers) (d : Char) (fresh : Pane)
    (hd : d.isDigit = true) :
    prefix_command app { code := KeyCode.Char d, modifiers := mods } fresh
      = (if 0 < d.toNat - 48 ∧ d.toNat - 48 ≤ app.windows.length then
           { app with active_idx := d.toNat - 48 - 1 }
         else app, true) := by
  unfold prefix_command
  dsimp only
  rw [if_pos hd]

theorem handle_key_quit (app : AppState) (key : KeyEvent) (now : Nat) (fresh : Pane)
    (hq : key.code = KeyCode.Char 'q' ∧ key.modifiers.ctrl = true) :
    handle_key app key now fresh = (app, true) := by
  unfold handle_key
  rw [if_pos hq]


/-- A live pane fixture, distinguished by its written bytes. -/
def mkPane (bs : List Nat) : Pane :=
  { exited := false, written := bs, last_rows := 30, last_cols := 120 }

/-- A pane fixture whose child has exited. -/
def mkPaneExited (bs : List Nat) : Pane :=
  { exited := true, written := bs, last_rows := 30, last_cols := 120 }

/-- No modifiers held. -/
def noMods : KeyModifiers := { ctrl := false, alt := false, shift := false }

/-- Only control held. -/
def ctrlMods : KeyModifiers := { ctrl := true, alt := false, shift := false }

/-- App-state fixture with the default configuration of `run` (main.rs lines 73-79). -/
def mkApp (ws : List Window) (ai : Nat) (m : Mode) : AppState :=
  { windows := ws, active_idx := ai, mode := m, escape_time_ms := 500,
    prefix_key := (KeyCode.Char 'b', ctrlMods) }

/-- C3: for every key event processed while the mode is PrefixArmed, when
`handle_key` returns without quitting the resulting mode is never PrefixArmed:
the armed state lasts at most one key event. -/
theorem C3_prefix_armed_lasts_one_event (app : AppState) (key : KeyEvent) (now : Nat)
    (fresh : Pane) (armed : Nat) (hm : app.mode = Mode.PrefixArmed armed)
    (hnq : (handle_key app key now fresh).2 = false) :
    ∀ t, (handle_key app key now fresh).1.mode ≠ Mode.PrefixArmed t := by
  intro t
  by_cases hq : key.code = KeyCode.Char 'q' ∧ key.modifiers.ctrl = true
  · rw [handle_key_quit app key now fresh hq] at hnq
    simp at hnq
  · rw [handle_key_armed_step app key now fresh armed hm hq]
    simp

/-- C3 witness: a concrete PrefixArmed state and key where the theorem applies. -/
theorem C3_prefix_armed_lasts_one_event_witness :
    (handle_key (mkApp [{ panes := [mkPane []], active_pane := 0, layout := LayoutKind.Horizontal }] 0 (Mode.PrefixArmed 3))
        { code := KeyCode.Char 'x', modifiers := noMods } 7 (mkPane [])).1.mode
      ≠ Mode.PrefixArmed 5 :=
  C3_prefix_armed_lasts_one_event _ _ 7 _ 3 rfl (by decide) 5

/-- C4: in PrefixArmed mode, an unrecognized non-quit key yields the same
result for every current time (so whether the elapsed time is below or above
`escape_time_ms` is unobservable): the state goes to Passthrough and no pane
receives any bytes (the windows, hence every pane's written stream, are
unchanged; in particular the prefix byte 0x02 is never injected). -/
theorem C4_escape_timeout_unobservable (app : AppState) (key : KeyEvent) (fresh : Pane)
    (armed : Nat) (hm : app.mode = Mode.PrefixArmed armed)
    (hq : ¬(key.code = KeyCode.Char 'q' ∧ key.modifiers.ctrl = true))
    (hr : prefixRecognized key.code = false) (now now2 : Nat) :
    handle_key app key now fresh = ({ app with mode := Mode.Passthrough }, false) ∧
    handle_key app key now fresh = handle_key app key now2 fresh ∧
    (handle_key app key now fresh).1.windows = app.windows := by
  have h1 := handle_key_armed_step app key now fresh armed hm hq
  have h2 := handle_key_armed_step app key now2 fresh armed hm hq
  rw [prefix_command_unrecognized app key fresh hr] at h1 h2
  exact ⟨h1, h1.trans h2.symm, by rw [h1]⟩

/-- C4 witness: the Escape key 100ms after arming versus 100000ms after arming
(escape_time_ms is 500): identical results, Passthrough, no bytes. -/
theorem C4_escape_timeout_unobservable_witness :
    handle_key (mkApp [{ panes := [mkPane []], active_pane := 0, layout := LayoutKind.Horizontal }] 0 (Mode.PrefixArmed 0))
        { code := KeyCode.Esc, modifiers := noMods } 100 (mkPane [])
      = ({ mkApp [{ panes := [mkPane []], active_pane := 0, layout := LayoutKind.Horizontal }] 0 (Mode.PrefixArmed 0) with
            mode := Mode.Passthrough }, false) ∧
    handle_key (mkApp [{ panes := [mkPane []], active_pane := 0, layout := LayoutKind.Horizontal }] 0 (Mode.PrefixArmed 0))
        { code := KeyCode.Esc, modifiers := noMods } 100 (mkPane [])
      = handle_key (mkApp [{ panes := [mkPane []], active_pane := 0, layout := LayoutKind.Horizontal }] 0 (Mode.PrefixArmed 0))
          { code := KeyCode.Esc, modifiers := noMods } 100000 (mkPane []) ∧
    (handle_key (mkApp [{ panes := [mkPane []], active_pane := 0, layout := LayoutKind.Horizontal }] 0 (Mode.PrefixArmed 0))
        { code := KeyCode.Esc, modifiers := noMods } 100 (mkPane [])).1.windows
      = (mkApp [{ panes := [mkPane []], active_pane := 0, layout := LayoutKind.Horizontal }] 0 (Mode.PrefixArmed 0)).windows :=
  C4_escape_timeout_unobservable _ _ _ 0 rfl (by decide) (by decide) 100 100000

/-- C8: in PrefixArmed mode a digit key `d` returns to Passthrough, sets
`active_idx` to `d-1` when `1 ≤ d ≤ windows.len()`, and leaves `active_idx`
unchanged when `d = 0` or `d > windows.len()`; the windows are untouched. -/
theorem C8_digit_selects_window (app : AppState) (mods : KeyModifiers) (d : Char)
    (fresh : Pane) (armed now : Nat) (hm : app.mode = Mode.PrefixArmed armed)
    (hd : d.isDigit = true) :
    (handle_key app { code := KeyCode.Char d, modifiers := mods } now fresh).2 = false ∧
    (handle_key app { code := KeyCode.Char d, modifiers := mods } now fresh).1.mode
      = Mode.Passthrough ∧
    (0 < d.toNat - 48 → d.toNat - 48 ≤ app.windows.length →
      (handle_key app { code := KeyCode.Char d, modifiers := mods } now fresh).1.active_idx
        = d.toNat - 48 - 1) ∧
    ((d.toNat - 48 = 0 ∨ app.windows.length < d.toNat - 48) →
      (handle_key app { code := KeyCode.Char d, modifiers := mods } now fresh).1.active_idx
        = app.active_idx) ∧
    (handle_key app { code := KeyCode.Char d, modifiers := mods } now fresh).1.windows
      = app.windows := by
  have hq : ¬(({ code := KeyCode.Char d, modifiers := mods } : KeyEvent).code
      = KeyCode.Char 'q' ∧
      ({ code := KeyCode.Char d, modifiers := mods } : KeyEvent).modifiers.ctrl = true) := by
    rintro ⟨hc, -⟩
    simp only [KeyCode.Char.injEq] at hc
    rw [hc] at hd
    exact absurd hd (by decide)
  have h1 := handle_key_armed_step app _ now fresh armed hm hq
  rw [prefix_command_digit app mods d fresh hd] at h1
  rw [h1]
  refine ⟨rfl, rfl, fun h0 hle => ?_, fun hor => ?_, ?_⟩
  · rw [if_pos (And.intro h0 hle)]
  · rw [if_neg (by omega)]
  · split_ifs <;> rfl

/-- C8 witness: with 2 windows, digit 2 selects window index 1; digit 7 and
digit 0 leave the active index unchanged. -/
theorem C8_digit_selects_window_witness :
    (handle_key (mkApp [{ panes := [mkPane []], active_pane := 0, layout := LayoutKind.Horizontal },
          { panes := [mkPane [1]], active_pane := 0, layout := LayoutKind.Horizontal }] 0 (Mode.PrefixArmed 0))
        { code := KeyCode.Char '2', modifiers := noMods } 0 (mkPane [])).1.active_idx = 1 :=
  (C8_digit_selects_window _ noMods '2' (mkPane []) 0 0 rfl (by decide)).2.2.1
    (by decide) (by decide)


/-- C2 counterexample: a window with three panes and active pane 0; after
`kill_active_pane` the window has 2 panes but `active_pane` is 0, not
`panes.len() - 1 = 1`, refuting the claim as stated. -/
theorem C2_counterexample :
    ((kill_active_pane (mkApp
        [{ panes := [mkPane [0], mkPane [1], mkPane [2]],
           active_pane := 0,
           layout := LayoutKind.Vertical }] 0 Mode.Passthrough)).windows.map
      (fun w => (w.active_pane, w.panes.length))) = [(0, 2)] ∧ (0 : Nat) ≠ 2 - 1 := by
  decide

/-- C2 (amended): killing with more than one pane removes the pane at the
active index and sets `active_pane` to `min (old active_pane) (new panes.len() - 1)`
(a clamp, reaching `panes.len() - 1` only when the old index is out of range);
killing with exactly one pane is a no-op leaving the state unchanged. -/
theorem C2_kill_clamps_active_pane (app : AppState) (w : Window)
    (hw : app.windows[app.active_idx]? = some w) :
    (1 < w.panes.length →
      (kill_active_pane app).windows[app.active_idx]?
        = some { w with panes := w.panes.eraseIdx w.active_pane,
                        active_pane := min w.active_pane
                          ((w.panes.eraseIdx w.active_pane).length - 1) }) ∧
    (w.panes.length = 1 → kill_active_pane app = app) :=
  ⟨fun h => kill_at_active app w hw h, fun h => kill_singleton_noop app w hw h⟩

/-- The 3-pane counterexample window and state for C2 and its witness. -/
def C2w : Window :=
  { panes := [mkPane [0], mkPane [1], mkPane [2]], active_pane := 0,
    layout := LayoutKind.Vertical }

/-- App fixture containing `C2w`. -/
def C2app : AppState := mkApp [C2w] 0 Mode.Passthrough

/-- A singleton window fixture. -/
def C2w1 : Window :=
  { panes := [mkPane [5]], active_pane := 0, layout := LayoutKind.Horizontal }

/-- App fixture containing `C2w1`. -/
def C2app1 : AppState := mkApp [C2w1] 0 Mode.Passthrough

/-- C2 witness: both halves of the amended claim at concrete states: the
3-pane window with active pane 0 keeps index 0 = min 0 1 after the kill, and
a singleton window is left unchanged. -/
theorem C2_kill_clamps_active_pane_witness :
    (kill_active_pane C2app).windows[0]?
      = some { panes := [mkPane [1], mkPane [2]], active_pane := 0,
               layout := LayoutKind.Vertical } ∧
    kill_active_pane C2app1 = C2app1 :=
  ⟨((C2_kill_clamps_active_pane C2app C2w rfl).1 (by decide)).trans (by decide),
   (C2_kill_clamps_active_pane C2app1 C2w1 rfl).2 rfl⟩

/-- C7: splitting the active window (either layout) and then killing the
active pane restores the window's pane count, provided the window exists and
has at least one pane. -/
theorem C7_split_then_kill_restores_count (app : AppState) (fresh : Pane)
    (kind : LayoutKind) (w : Window)
    (hw : app.windows[app.active_idx]? = some w) (hne : w.panes ≠ []) :
    ((kill_active_pane (split_active app fresh kind)).windows[app.active_idx]?).map
        (fun w2 => w2.panes.length)
      = some w.panes.length := by
  have hsplit := split_at_active app fresh kind w hw
  have hai : (split_active app fresh kind).active_idx = app.active_idx := rfl
  have hw2 : (split_active app fresh kind).windows[(split_active app fresh kind).active_idx]?
      = some { w with
                 panes := w.panes ++ [fresh],
                 active_pane := (w.panes ++ [fresh]).length - 1,
                 layout := kind } := by
    rw [hai]
    exact hsplit
  have hlen : 0 < w.panes.length := List.length_pos.mpr hne
  have hkill := kill_at_active (split_active app fresh kind) _ hw2
    (by simp only [List.length_append, List.length_cons, List.length_nil]; omega)
  rw [hai] at hkill
  rw [hkill]
  have h1 : (w.panes ++ [fresh]).length - 1 = w.panes.length := by simp
  rw [h1, eraseIdx_append_singleton]
  rfl

/-- Window fixture for the C7 witness. -/
def C7w : Window :=
  { panes := [mkPane [9]], active_pane := 0, layout := LayoutKind.Horizontal }

/-- App fixture for the C7 witness. -/
def C7app : AppState := mkApp [C7w] 0 Mode.Passthrough

/-- C7 witness: a 1-pane window split then killed is back to 1 pane. -/
theorem C7_split_then_kill_restores_count_witness :
    ((kill_active_pane (split_active C7app (mkPane [7]) LayoutKind.Vertical)).windows[0]?).map
        (fun w2 => w2.panes.length)
      = some 1 :=
  C7_split_then_kill_restores_count C7app (mkPane [7]) LayoutKind.Vertical C7w rfl (by decide)

/-- C10: `kill_active_pane` modifies at most the active window's pane list
and active-pane index: `active_idx`, the mode, the timeout, the prefix-key
configuration, every other window, and the active window's layout kind are
all unchanged, whether or not a pane is removed. -/
theorem C10_kill_frame (app : AppState) :
    (kill_active_pane app).active_idx = app.active_idx ∧
    (kill_active_pane app).mode = app.mode ∧
    (kill_active_pane app).escape_time_ms = app.escape_time_ms ∧
    (kill_active_pane app).prefix_key = app.prefix_key ∧
    (∀ k, k ≠ app.active_idx → (kill_active_pane app).windows[k]? = app.windows[k]?) ∧
    ((kill_active_pane app).windows[app.active_idx]?).map (fun w => w.layout)
      = (app.windows[app.active_idx]?).map (fun w => w.layout) := by
  refine ⟨rfl, rfl, rfl, rfl, fun k hk => ?_, ?_⟩
  · show (app.windows.modify _ app.active_idx)[k]? = _
    exact List.getElem?_modify_ne _ app.windows (fun hh => hk hh.symm)
  · show ((app.windows.modify _ app.active_idx)[app.active_idx]?).map _ = _
    rw [List.getElem?_modify_eq]
    cases hw : app.windows[app.active_idx]? with
    | none => rfl
    | some w =>
        simp only [Option.map_some, Option.some.injEq]
        split_ifs <;> rfl

/-- C10 witness: concrete instance with two windows, killing in window 0
leaves window 1, the mode and the active window's layout untouched. -/
theorem C10_kill_frame_witness :
    (kill_active_pane (mkApp
        [{ panes := [mkPane [0], mkPane [1]], active_pane := 1, layout := LayoutKind.Vertical },
         { panes := [mkPane [2]], active_pane := 0, layout := LayoutKind.Horizontal }]
        0 Mode.Passthrough)).mode = Mode.Passthrough ∧
    (kill_active_pane (mkApp
        [{ panes := [mkPane [0], mkPane [1]], active_pane := 1, layout := LayoutKind.Vertical },
         { panes := [mkPane [2]], active_pane := 0, layout := LayoutKind.Horizontal }]
        0 Mode.Passthrough)).windows[1]?
      = some { panes := [mkPane [2]], active_pane := 0, layout := LayoutKind.Horizontal } :=
  ⟨(C10_kill_frame _).2.1,
   ((C10_kill_frame _).2.2.2.2.1 1 (by decide)).trans (by decide)⟩


/-- One-window one-pane state armed with the prefix, about to receive `:` --
the start state of the command-prompt scenario. -/
def C1app : AppState :=
  mkApp [{ panes := [mkPane []], active_pane := 0, layout := LayoutKind.Horizontal }]
    0 (Mode.PrefixArmed 0)

/-- The key events of the scenario: `:` then `split-window -h` then Enter. -/
def C1keys : List KeyEvent :=
  { code := KeyCode.Char ':', modifiers := noMods }
    :: (keysOf "split-window -h" ++ [{ code := KeyCode.Enter, modifiers := noMods }])

/-- C1 (bug demonstration): pressing `:` in PrefixArmed leaves the mode
Passthrough, not CommandPrompt — the unconditional `app.mode = Passthrough`
after the match (main.rs line 325) clobbers the CommandPrompt set in the `:`
arm. Consequently the typed `split-window -h` plus Enter is forwarded to the
pane as bytes (the UTF-8 of `split-window -h` then CR) and the window still
has 1 pane with Horizontal layout instead of the 2 panes the spec demands. -/
theorem C1_colon_does_not_enter_prompt :
    (handle_key C1app { code := KeyCode.Char ':', modifiers := noMods } 0 (mkPane [])).1.mode
      = Mode.Passthrough ∧
    (processKeys (mkPane []) 0 C1app C1keys).2 = false ∧
    (processKeys (mkPane []) 0 C1app C1keys).1.mode = Mode.Passthrough ∧
    (processKeys (mkPane []) 0 C1app C1keys).1.windows.map
        (fun w => (w.panes.length, w.layout)) = [(1, LayoutKind.Horizontal)] ∧
    (processKeys (mkPane []) 0 C1app C1keys).1.windows.map
        (fun w => w.panes.map (fun p => p.written))
      = [[[115, 112, 108, 105, 116, 45, 119, 105, 110, 100, 111, 119, 32, 45, 104, 13]]] := by
  decide

/-- C5: the model invariant (active indices in range) is preserved by
`create_window`, `split_active`, `kill_active_pane`, every key event through
`handle_key` (which performs window selection by digit, `n` and `p`),
`execute_command_prompt` (which performs `select-window`), and
`reap_children`. -/
theorem C5_invariants_preserved (app : AppState) (fresh : Pane) (kind : LayoutKind)
    (key : KeyEvent) (now : Nat) (h : AppWF app) :
    AppWF (create_window fresh app) ∧ AppWF (split_active app fresh kind) ∧
    AppWF (kill_active_pane app) ∧ AppWF (handle_key app key now fresh).1 ∧
    AppWF (execute_command_prompt app fresh) ∧ AppWF (reap_children app).1 :=
  ⟨wf_create fresh app h, wf_split app fresh kind h, wf_kill app h,
   wf_handle app key now fresh h, wf_execute app fresh h, wf_reap app h⟩

/-- C5 witness: the invariant holds after creating a window and after
reaping on a concrete well-formed state. -/
theorem C5_invariants_preserved_witness :
    AppWF (create_window (mkPane []) C2app) ∧ AppWF (reap_children C2app).1 :=
  ⟨(C5_invariants_preserved C2app (mkPane []) LayoutKind.Vertical
      { code := KeyCode.Char 'n', modifiers := noMods } 0 (by decide)).1,
   (C5_invariants_preserved C2app (mkPane []) LayoutKind.Vertical
      { code := KeyCode.Char 'n', modifiers := noMods } 0 (by decide)).2.2.2.2.2⟩

/-- C6: with `RMUX_ACTIVE = "1"` the startup path writes only the refusal
line to stderr and returns with exit code 0, never enabling raw mode or the
alternate screen; otherwise it sets `RMUX_ACTIVE` to `"1"` strictly before
enabling raw mode. -/
theorem C6_nested_session_refusal (env : Option String) :
    (env = some "1" →
      main_startup env
        = ([StartEffect.writeStderrLine "rmux: nested sessions are not allowed"], some 0) ∧
      StartEffect.enableRaw ∉ (main_startup env).1 ∧
      StartEffect.enterAltScreen ∉ (main_startup env).1) ∧
    (env ≠ some "1" →
      main_startup env
        = ([StartEffect.setEnvVar "RMUX_ACTIVE" "1", StartEffect.enableRaw,
            StartEffect.enterAltScreen, StartEffect.applyCursorStyle], none) ∧
      (main_startup env).1[0]? = some (StartEffect.setEnvVar "RMUX_ACTIVE" "1") ∧
      (main_startup env).1[1]? = some StartEffect.enableRaw) := by
  constructor
  · intro h
    unfold main_startup
    rw [if_pos h]
    exact ⟨rfl, by decide, by decide⟩
  · intro h
    unfold main_startup
    rw [if_neg h]
    exact ⟨rfl, rfl, rfl⟩

/-- C6 witness: both branches at concrete environments. -/
theorem C6_nested_session_refusal_witness :
    main_startup (some "1")
      = ([StartEffect.writeStderrLine "rmux: nested sessions are not allowed"], some 0) ∧
    (main_startup none).1[0]? = some (StartEffect.setEnvVar "RMUX_ACTIVE" "1") ∧
    (main_startup none).1[1]? = some StartEffect.enableRaw :=
  ⟨((C6_nested_session_refusal (some "1")).1 rfl).1,
   ((C6_nested_session_refusal none).2 (by decide)).2.1,
   ((C6_nested_session_refusal none).2 (by decide)).2.2⟩


/-- C9 fixture: a window whose pane 0 has exited while the active pane is
index 1; survivors keep their numeric index clamped, so index 1 afterwards
designates what was pane 2. -/
def C9w0 : Window :=
  { panes := [mkPaneExited [0], mkPane [1], mkPane [2]], active_pane := 1,
    layout := LayoutKind.Vertical }

/-- C9 fixture: a window whose only pane has exited (removed whole). -/
def C9w1 : Window :=
  { panes := [mkPaneExited [3]], active_pane := 0, layout := LayoutKind.Horizontal }

/-- C9 fixture: app with both windows, window 1 active. -/
def C9app : AppState := mkApp [C9w0, C9w1] 1 Mode.Passthrough

/-- C9: `reap_children` removes exactly the panes whose child reports exited
and then every window whose pane list became empty; each surviving window's
`active_pane` is `min (old active_pane) (new panes.len() - 1)` and
`active_idx` is `min (old active_idx) (new windows.len() - 1)`; the returned
flag is emptiness of the window list. Consequently a surviving index can
designate a different pane than before the reap, as the fixture conjunct at
`C9app` shows (index 1 designated pane `[1]`, afterwards pane `[2]`). -/
theorem C9_reap_removes_exited_and_clamps (app : AppState) (h : AppWF app)
    (hne : app.windows ≠ []) :
    (reap_children app).1.windows
        = (app.windows.map reap_panes).filter (fun w => !w.panes.isEmpty) ∧
    (∀ w ∈ app.windows, (reap_panes w).panes = w.panes.filter (fun p => !p.exited)) ∧
    (∀ w ∈ app.windows, w.panes ≠ [] →
      (reap_panes w).active_pane = min w.active_pane ((reap_panes w).panes.length - 1)) ∧
    (reap_children app).1.active_idx
        = min app.active_idx ((reap_children app).1.windows.length - 1) ∧
    (reap_children app).2 = (reap_children app).1.windows.isEmpty ∧
    ((reap_children C9app).1.windows[0]?.bind (fun w => w.panes[w.active_pane]?)
      ≠ C9app.windows[0]?.bind (fun w => w.panes[w.active_pane]?)) := by
  have h0p : (reap_panes C9w0).panes = [mkPane [1], mkPane [2]] :=
    (reap_panes_panes C9w0).trans (by decide)
  have h0a : (reap_panes C9w0).active_pane = 1 := by
    have ha := reap_panes_active C9w0 (by decide)
    rw [h0p] at ha
    simpa [C9w0] using ha
  have h1p : (reap_panes C9w1).panes = [] :=
    (reap_panes_panes C9w1).trans (by decide)
  have hws : (reap_children C9app).1.windows = [reap_panes C9w0] := by
    rw [reap_children_windows]
    show List.filter _ (List.map reap_panes [C9w0, C9w1]) = _
    rw [List.map_cons, List.map_cons, List.map_nil,
        List.filter_cons_of_pos (by rw [h0p]; decide),
        List.filter_cons_of_neg (by rw [h1p]; decide),
        List.filter_nil]
  refine ⟨reap_children_windows app, fun w _ => reap_panes_panes w,
    fun w hw hp => reap_panes_active w (h.2 w hw hp),
    reap_children_active_idx app (h.1 hne), rfl, ?_⟩
  rw [hws]
  simp only [List.getElem?_cons_zero, Option.some_bind]
  rw [h0p, h0a]
  decide

/-- C9 witness: at the fixture state `C9app`, the characterization applies:
the surviving window list is the filtered map. -/
theorem C9_reap_removes_exited_and_clamps_witness :
    (reap_children C9app).1.windows
      = (C9app.windows.map reap_panes).filter (fun w => !w.panes.isEmpty) :=
  (C9_reap_removes_exited_and_clamps C9app (by decide) (by decide)).1

end Rmux
